import Mathlib

/-!
Verification of the iCards MCP bridge core subsystems.

This development gives a shallow embedding, in Lean 4, of the three core
subsystems of the iCards MCP repository and proves the specified properties
about them:

* the response normalizer of `app/services/base_service.py`
  (`BaseService._normalize_response`);
* the resilient request executor of `app/adapters/icards_api_adapter.py`
  (`IcardsApiAdapter._make_request`), with its retry/backoff loop and
  error classification;
* the bulk tag-assignment engine and the deck-statistics estimator of
  `app/mcp/tools.py` (`assign_tags_to_flashcards`, `get_deck_stats`,
  `_calculate_basic_stats_from_mcp_data`).

Python dynamic values are modelled by the `JVal` JSON type; Python dicts by
ordered association lists over `String`; raised Python exceptions by the
`Except` error monad.  Remote HTTP calls are modelled by explicit oracles
(one outcome per attempt) or by an explicit key-value store standing for the
remote backend, which this repository treats as an opaque collaborator.
-/

/-! ## JSON values and Python dict operations -/

/-- A JSON-like value, modelling the dynamically typed data handled by the
Python code (`dict[str, Any]` contents). -/
inductive JVal where
  | null
  | bool (b : Bool)
  | num (n : Int)
  | str (s : String)
  | arr (items : List JVal)
  | obj (fields : List (String × JVal))

/-- A Python dict with string keys, as an insertion-ordered association
list. -/
abbrev Dict := List (String × JVal)

/-- Python truthiness (`if x:`) for the modelled values. -/
def JVal.truthy : JVal → Bool
  | .null => false
  | .bool b => b
  | .num n => n != 0
  | .str s => !s.isEmpty
  | .arr items => !items.isEmpty
  | .obj fields => !fields.isEmpty

/-- `k in d` for a Python dict. -/
def dictHas (d : Dict) (k : String) : Bool :=
  d.any (fun p => p.1 == k)

/-- `d.get(k)` for a Python dict: the first binding of `k`, if any. -/
def dictGet (d : Dict) (k : String) : Option JVal :=
  (d.find? (fun p => p.1 == k)).map (fun p => p.2)

/-- `d[k] = v` for a Python dict: replace the binding in place if the key is
present, otherwise append it. -/
def dictSet (d : Dict) (k : String) (v : JVal) : Dict :=
  match d with
  | [] => [(k, v)]
  | (k₀, v₀) :: rest =>
    if k₀ == k then (k₀, v) :: rest else (k₀, v₀) :: dictSet rest k v

/-- `del d[k]` for a Python dict. -/
def dictDel (d : Dict) (k : String) : Dict :=
  d.filter (fun p => p.1 != k)

/-- Python `str.upper()` (ASCII), used by the method dispatch of
`_make_request`. -/
def pyUpper (s : String) : String :=
  String.mk (s.data.map Char.toUpper)

/-! ## Response normalizer (`BaseService._normalize_response`) -/

/-- How `_normalize_response` classifies the value found under the generic
`data` key. -/
inductive DataClass where
  | flashcards
  | decks
  | keep

/-- The content inspection of `BaseService._normalize_response`
(base_service.py lines 150-176): the value under `data` is reclassified only
when it is a truthy list whose first element is a truthy dict carrying
`front` and `back` (flashcards) or, failing that, `name` (decks). -/
def classifyData : JVal → DataClass
  | JVal.arr (first_item :: _) =>
    match first_item with
    | JVal.obj fields =>
      if fields.isEmpty then DataClass.keep
      else if dictHas fields "front" && dictHas fields "back" then DataClass.flashcards
      else if dictHas fields "name" then DataClass.decks
      else DataClass.keep
    | _ => DataClass.keep
  | _ => DataClass.keep

namespace BaseService

/-- Shallow embedding of `BaseService._normalize_response`
(base_service.py lines 121-188).  An envelope already exposing `decks` or
`flashcards` is returned unchanged; an envelope exposing a generic `data`
field has that field reclassified by content inspection, the `data` key
being removed exactly when reclassification succeeded. -/
def normalize_response (response : Dict) : Dict :=
  if dictHas response "data" && !dictHas response "decks"
      && !dictHas response "flashcards" then
    let data_items := (dictGet response "data").getD (JVal.arr [])
    let normalized :=
      match classifyData data_items with
      | DataClass.flashcards => dictSet response "flashcards" data_items
      | DataClass.decks => dictSet response "decks" data_items
      | DataClass.keep => dictSet response "data" data_items
    if (dictHas normalized "decks" || dictHas normalized "flashcards")
        && dictHas normalized "data" then
      dictDel normalized "data"
    else normalized
  else response

end BaseService

/-! ### Dictionary lemmas -/

theorem dictHas_cons (k₀ : String) (v₀ : JVal) (rest : Dict) (k : String) :
    dictHas ((k₀, v₀) :: rest) k = (k₀ == k || dictHas rest k) := rfl

theorem dictHas_set_self (d : Dict) (k : String) (v : JVal) :
    dictHas (dictSet d k v) k = true := by
  induction d with
  | nil => simp [dictSet, dictHas]
  | cons p rest ih =>
    obtain ⟨k₀, v₀⟩ := p
    by_cases h : (k₀ == k) = true
    · show dictHas (if (k₀ == k) = true then (k₀, v) :: rest
        else (k₀, v₀) :: dictSet rest k v) k = true
      rw [if_pos h, dictHas_cons, h, Bool.true_or]
    · show dictHas (if (k₀ == k) = true then (k₀, v) :: rest
        else (k₀, v₀) :: dictSet rest k v) k = true
      rw [if_neg h, dictHas_cons, ih, Bool.or_true]

theorem dictHas_set_ne (d : Dict) (k k₁ : String) (v : JVal) (h : k ≠ k₁) :
    dictHas (dictSet d k₁ v) k = dictHas d k := by
  induction d with
  | nil =>
    show (k₁ == k || false) = false
    rw [Bool.or_false]
    exact beq_eq_false_iff_ne.mpr (Ne.symm h)
  | cons p rest ih =>
    obtain ⟨k₀, v₀⟩ := p
    by_cases h₀ : (k₀ == k₁) = true
    · show dictHas (if (k₀ == k₁) = true then (k₀, v) :: rest
        else (k₀, v₀) :: dictSet rest k₁ v) k = dictHas ((k₀, v₀) :: rest) k
      rw [if_pos h₀, dictHas_cons, dictHas_cons]
    · show dictHas (if (k₀ == k₁) = true then (k₀, v) :: rest
        else (k₀, v₀) :: dictSet rest k₁ v) k = dictHas ((k₀, v₀) :: rest) k
      rw [if_neg h₀, dictHas_cons, dictHas_cons, ih]

theorem dictHas_del_ne (d : Dict) (k k₁ : String) (h : k ≠ k₁) :
    dictHas (dictDel d k₁) k = dictHas d k := by
  induction d with
  | nil => rfl
  | cons p rest ih =>
    obtain ⟨k₀, v₀⟩ := p
    by_cases h₀ : (k₀ == k₁) = true
    · have hk : (k₀ == k) = false := by
        have hkk₁ : k₀ = k₁ := beq_iff_eq.mp h₀
        exact beq_eq_false_iff_ne.mpr (by rw [hkk₁]; exact Ne.symm h)
      have hdrop : ¬(((k₀, v₀).1 != k₁) = true) := by simp [bne, h₀]
      show dictHas (List.filter (fun p => p.1 != k₁) ((k₀, v₀) :: rest)) k
          = dictHas ((k₀, v₀) :: rest) k
      rw [List.filter_cons_of_neg (p := fun p => p.1 != k₁) (a := (k₀, v₀)) hdrop]
      show dictHas (dictDel rest k₁) k = dictHas ((k₀, v₀) :: rest) k
      rw [ih, dictHas_cons, hk, Bool.false_or]
    · have hkeep : (((k₀, v₀).1 != k₁) = true) := by simp [bne, h₀]
      show dictHas (List.filter (fun p => p.1 != k₁) ((k₀, v₀) :: rest)) k
          = dictHas ((k₀, v₀) :: rest) k
      rw [List.filter_cons_of_pos (p := fun p => p.1 != k₁) (a := (k₀, v₀)) hkeep]
      show (k₀ == k || dictHas (dictDel rest k₁) k) = (k₀ == k || dictHas rest k)
      rw [ih]

theorem dictHas_del_self (d : Dict) (k : String) :
    dictHas (dictDel d k) k = false := by
  induction d with
  | nil => rfl
  | cons p rest ih =>
    obtain ⟨k₀, v₀⟩ := p
    by_cases h₀ : (k₀ == k) = true
    · have hdrop : ¬(((k₀, v₀).1 != k) = true) := by simp [bne, h₀]
      show dictHas (List.filter (fun p => p.1 != k) ((k₀, v₀) :: rest)) k = false
      rw [List.filter_cons_of_neg (p := fun p => p.1 != k) (a := (k₀, v₀)) hdrop]
      exact ih
    · have hkeep : (((k₀, v₀).1 != k) = true) := by simp [bne, h₀]
      show dictHas (List.filter (fun p => p.1 != k) ((k₀, v₀) :: rest)) k = false
      rw [List.filter_cons_of_pos (p := fun p => p.1 != k) (a := (k₀, v₀)) hkeep]
      show (k₀ == k || dictHas (dictDel rest k) k) = false
      rw [ih, Bool.or_false]
      exact Bool.not_eq_true _ ▸ Bool.of_not_eq_true h₀

theorem dictSet_get_same (d : Dict) (k : String) (v : JVal)
    (hget : dictGet d k = some v) : dictSet d k v = d := by
  induction d with
  | nil => simp [dictGet] at hget
  | cons p rest ih =>
    obtain ⟨k₀, v₀⟩ := p
    by_cases h₀ : ((fun p : String × JVal => p.1 == k) (k₀, v₀)) = true
    · have hfind : dictGet ((k₀, v₀) :: rest) k = some v₀ := by
        show (List.find? (fun p => p.1 == k) ((k₀, v₀) :: rest)).map (fun p => p.2)
            = some v₀
        rw [List.find?_cons_of_pos (p := fun p => p.1 == k) (a := (k₀, v₀)) _ h₀]
        rfl
      rw [hfind] at hget
      have hv : v₀ = v := Option.some.inj hget
      subst hv
      show (if (k₀ == k) = true then (k₀, v₀) :: rest
        else (k₀, v₀) :: dictSet rest k v₀) = (k₀, v₀) :: rest
      rw [if_pos h₀]
    · have hrest : dictGet rest k = some v := by
        show (List.find? (fun p => p.1 == k) rest).map (fun p => p.2) = some v
        have heq : dictGet ((k₀, v₀) :: rest) k
            = (List.find? (fun p => p.1 == k) rest).map (fun p => p.2) := by
          show (List.find? (fun p => p.1 == k) ((k₀, v₀) :: rest)).map (fun p => p.2) = _
          rw [List.find?_cons_of_neg (p := fun p => p.1 == k) (a := (k₀, v₀)) _ h₀]
        rw [← heq]
        exact hget
      show (if (k₀ == k) = true then (k₀, v) :: rest
        else (k₀, v₀) :: dictSet rest k v) = (k₀, v₀) :: rest
      rw [if_neg h₀, ih hrest]

theorem dictGet_cons (k₀ : String) (v₀ : JVal) (rest : Dict) (k : String) :
    dictGet ((k₀, v₀) :: rest) k
      = if (k₀ == k) = true then some v₀ else dictGet rest k := by
  by_cases h : (k₀ == k) = true
  · rw [if_pos h]
    show (List.find? (fun p => p.1 == k) ((k₀, v₀) :: rest)).map (fun p => p.2)
        = some v₀
    rw [List.find?_cons_of_pos (p := fun p => p.1 == k) (a := (k₀, v₀)) _ h]
    rfl
  · rw [if_neg h]
    show (List.find? (fun p => p.1 == k) ((k₀, v₀) :: rest)).map (fun p => p.2)
        = dictGet rest k
    rw [List.find?_cons_of_neg (p := fun p => p.1 == k) (a := (k₀, v₀)) _ h]
    rfl

theorem dictHas_of_get (d : Dict) (k : String) (v : JVal)
    (h : dictGet d k = some v) : dictHas d k = true := by
  induction d with
  | nil => simp [dictGet] at h
  | cons p rest ih =>
    obtain ⟨k₀, v₀⟩ := p
    rw [dictGet_cons] at h
    rw [dictHas_cons]
    by_cases h₀ : (k₀ == k) = true
    · rw [h₀, Bool.true_or]
    · rw [if_neg h₀] at h
      rw [ih h, Bool.or_true]

theorem dictGet_of_has (d : Dict) (k : String) (h : dictHas d k = true) :
    ∃ v, dictGet d k = some v := by
  induction d with
  | nil => simp [dictHas] at h
  | cons p rest ih =>
    obtain ⟨k₀, v₀⟩ := p
    rw [dictHas_cons] at h
    rw [dictGet_cons]
    by_cases h₀ : (k₀ == k) = true
    · exact ⟨v₀, by rw [if_pos h₀]⟩
    · have h₀f : (k₀ == k) = false := by
        revert h₀
        cases k₀ == k <;> simp
      rw [h₀f, Bool.false_or] at h
      rw [if_neg h₀]
      exact ih h

theorem dictSet_cons (k₀ : String) (v₀ : JVal) (rest : Dict) (k : String) (v : JVal) :
    dictSet ((k₀, v₀) :: rest) k v
      = if (k₀ == k) = true then (k₀, v) :: rest
        else (k₀, v₀) :: dictSet rest k v := rfl

theorem dictDel_cons (k₀ : String) (v₀ : JVal) (rest : Dict) (k : String) :
    dictDel ((k₀, v₀) :: rest) k
      = if (k₀ == k) = true then dictDel rest k
        else (k₀, v₀) :: dictDel rest k := by
  by_cases h : (k₀ == k) = true
  · have hdrop : ¬(((fun p : String × JVal => p.1 != k) (k₀, v₀)) = true) := by
      simp [bne, h]
    rw [if_pos h]
    exact List.filter_cons_of_neg (p := fun p => p.1 != k) (a := (k₀, v₀)) hdrop
  · have hkeep : ((fun p : String × JVal => p.1 != k) (k₀, v₀)) = true := by
      simp [bne, h]
    rw [if_neg h]
    exact List.filter_cons_of_pos (p := fun p => p.1 != k) (a := (k₀, v₀)) hkeep

theorem dictGet_set_self (d : Dict) (k : String) (v : JVal) :
    dictGet (dictSet d k v) k = some v := by
  induction d with
  | nil => simp [dictSet, dictGet]
  | cons p rest ih =>
    obtain ⟨k₀, v₀⟩ := p
    rw [dictSet_cons]
    by_cases h : (k₀ == k) = true
    · rw [if_pos h, dictGet_cons, if_pos h]
    · rw [if_neg h, dictGet_cons, if_neg h]
      exact ih

theorem dictGet_set_ne (d : Dict) (k k₁ : String) (v : JVal) (h : k ≠ k₁) :
    dictGet (dictSet d k₁ v) k = dictGet d k := by
  induction d with
  | nil =>
    have : (k₁ == k) = false := beq_eq_false_iff_ne.mpr (Ne.symm h)
    show dictGet [(k₁, v)] k = none
    rw [dictGet_cons, if_neg (by rw [this]; exact fun hc => Bool.false_ne_true hc)]
    rfl
  | cons p rest ih =>
    obtain ⟨k₀, v₀⟩ := p
    rw [dictSet_cons]
    by_cases h₀ : (k₀ == k₁) = true
    · have hk : (k₀ == k) = false := by
        have hkk₁ : k₀ = k₁ := beq_iff_eq.mp h₀
        exact beq_eq_false_iff_ne.mpr (by rw [hkk₁]; exact Ne.symm h)
      rw [if_pos h₀, dictGet_cons, dictGet_cons,
        if_neg (by rw [hk]; exact fun hc => Bool.false_ne_true hc),
        if_neg (by rw [hk]; exact fun hc => Bool.false_ne_true hc)]
    · rw [if_neg h₀, dictGet_cons, dictGet_cons, ih]

theorem dictGet_del_ne (d : Dict) (k k₁ : String) (h : k ≠ k₁) :
    dictGet (dictDel d k₁) k = dictGet d k := by
  induction d with
  | nil => rfl
  | cons p rest ih =>
    obtain ⟨k₀, v₀⟩ := p
    rw [dictDel_cons]
    by_cases h₀ : (k₀ == k₁) = true
    · have hk : (k₀ == k) = false := by
        have hkk₁ : k₀ = k₁ := beq_iff_eq.mp h₀
        exact beq_eq_false_iff_ne.mpr (by rw [hkk₁]; exact Ne.symm h)
      rw [if_pos h₀, ih, dictGet_cons,
        if_neg (by rw [hk]; exact fun hc => Bool.false_ne_true hc)]
    · rw [if_neg h₀, dictGet_cons, dictGet_cons, ih]

/-! ### Normalizer behaviour -/

theorem normalize_of_has_decks (resp : Dict) (h : dictHas resp "decks" = true) :
    BaseService.normalize_response resp = resp := by
  unfold BaseService.normalize_response
  rw [h]
  simp

theorem normalize_of_has_flashcards (resp : Dict)
    (h : dictHas resp "flashcards" = true) :
    BaseService.normalize_response resp = resp := by
  unfold BaseService.normalize_response
  rw [h]
  simp

theorem normalize_of_no_data (resp : Dict) (h : dictHas resp "data" = false) :
    BaseService.normalize_response resp = resp := by
  unfold BaseService.normalize_response
  rw [h]
  simp

theorem normalize_classified (resp : Dict) (v : JVal)
    (hget : dictGet resp "data" = some v)
    (hdk : dictHas resp "decks" = false)
    (hfc : dictHas resp "flashcards" = false) :
    BaseService.normalize_response resp
      = match classifyData v with
        | DataClass.flashcards => dictDel (dictSet resp "flashcards" v) "data"
        | DataClass.decks => dictDel (dictSet resp "decks" v) "data"
        | DataClass.keep => resp := by
  have hdata : dictHas resp "data" = true := dictHas_of_get resp "data" v hget
  unfold BaseService.normalize_response
  rw [hdata, hdk, hfc, hget]
  simp only [Bool.not_false, Bool.and_true, Bool.true_and, if_true, Option.getD_some]
  cases hc : classifyData v with
  | flashcards =>
    simp only [hc]
    rw [if_pos]
    rw [dictHas_set_self, dictHas_set_ne resp "data" "flashcards" v (by decide),
      hdata, Bool.or_true, Bool.true_and]
  | decks =>
    simp only [hc]
    rw [if_pos]
    rw [dictHas_set_self, dictHas_set_ne resp "data" "decks" v (by decide),
      hdata, Bool.true_or, Bool.true_and]
  | keep =>
    simp only [hc]
    rw [dictSet_get_same resp "data" v hget, if_neg]
    rw [hdk, hfc, Bool.or_false, Bool.false_and]
    exact fun hcontra => Bool.false_ne_true hcontra

/-- C7: Normalization fixpoint: for every dict envelope `e`,
`normalize (normalize e) = normalize e`; and any envelope that already
exposes a `decks` or `flashcards` field is returned unchanged by
`normalize`. -/
theorem normalize_response_fixpoint (e : Dict) :
    BaseService.normalize_response (BaseService.normalize_response e)
        = BaseService.normalize_response e
    ∧ ((dictHas e "decks" = true ∨ dictHas e "flashcards" = true) →
        BaseService.normalize_response e = e) := by
  constructor
  · by_cases hdk : dictHas e "decks" = true
    · rw [normalize_of_has_decks e hdk]
      exact normalize_of_has_decks e hdk
    · by_cases hfc : dictHas e "flashcards" = true
      · rw [normalize_of_has_flashcards e hfc]
        exact normalize_of_has_flashcards e hfc
      · by_cases hdata : dictHas e "data" = true
        · have hdk' : dictHas e "decks" = false := by
            revert hdk; cases dictHas e "decks" <;> simp
          have hfc' : dictHas e "flashcards" = false := by
            revert hfc; cases dictHas e "flashcards" <;> simp
          obtain ⟨v, hv⟩ := dictGet_of_has e "data" hdata
          have hcl := normalize_classified e v hv hdk' hfc'
          cases hc : classifyData v with
          | flashcards =>
            simp only [hc] at hcl
            rw [hcl]
            apply normalize_of_has_flashcards
            rw [dictHas_del_ne _ "flashcards" "data" (by decide), dictHas_set_self]
          | decks =>
            simp only [hc] at hcl
            rw [hcl]
            apply normalize_of_has_decks
            rw [dictHas_del_ne _ "decks" "data" (by decide), dictHas_set_self]
          | keep =>
            simp only [hc] at hcl
            rw [hcl]
            exact hcl
        · have hdata' : dictHas e "data" = false := by
            revert hdata; cases dictHas e "data" <;> simp
          rw [normalize_of_no_data e hdata']
          exact normalize_of_no_data e hdata'
  · intro h
    cases h with
    | inl hdk => exact normalize_of_has_decks e hdk
    | inr hfc => exact normalize_of_has_flashcards e hfc

/-- Witness for the normalization fixpoint: a concrete envelope already
exposing `decks` is a fixed point and is returned unchanged. -/
theorem normalize_response_fixpoint_witness :
    BaseService.normalize_response
        (BaseService.normalize_response [("decks", JVal.arr [])])
      = BaseService.normalize_response [("decks", JVal.arr [])]
    ∧ BaseService.normalize_response [("decks", JVal.arr [])]
      = [("decks", JVal.arr [])] :=
  ⟨(normalize_response_fixpoint [("decks", JVal.arr [])]).1,
    (normalize_response_fixpoint [("decks", JVal.arr [])]).2 (Or.inl rfl)⟩

theorem dictHas_nonempty (d : Dict) (k : String) (h : dictHas d k = true) :
    d.isEmpty = false := by
  cases d with
  | nil => simp [dictHas] at h
  | cons p rest => rfl

/-- C8: Normalizer classification: for an envelope carrying `data` and
neither `decks` nor `flashcards`, a non-empty `data` list whose first element
is a dict with `front` and `back` is re-exposed under `flashcards`; failing
that, a first element with `name` re-exposes the list under `decks`; every
other shape leaves the envelope untouched.  `data` is removed exactly when
reclassification succeeded, and all other envelope keys keep their values. -/
theorem normalize_response_classification (resp : Dict) (v : JVal)
    (hget : dictGet resp "data" = some v)
    (hdk : dictHas resp "decks" = false)
    (hfc : dictHas resp "flashcards" = false) :
    (∀ ff rest, v = JVal.arr (JVal.obj ff :: rest) →
      dictHas ff "front" = true → dictHas ff "back" = true →
      dictGet (BaseService.normalize_response resp) "flashcards" = some v
      ∧ dictHas (BaseService.normalize_response resp) "data" = false
      ∧ ∀ k, k ≠ "data" → k ≠ "flashcards" →
          dictGet (BaseService.normalize_response resp) k = dictGet resp k)
    ∧ (∀ ff rest, v = JVal.arr (JVal.obj ff :: rest) →
      (dictHas ff "front" && dictHas ff "back") = false → dictHas ff "name" = true →
      dictGet (BaseService.normalize_response resp) "decks" = some v
      ∧ dictHas (BaseService.normalize_response resp) "data" = false
      ∧ ∀ k, k ≠ "data" → k ≠ "decks" →
          dictGet (BaseService.normalize_response resp) k = dictGet resp k)
    ∧ (classifyData v = DataClass.keep →
        BaseService.normalize_response resp = resp) := by
  have hcl := normalize_classified resp v hget hdk hfc
  refine ⟨?_, ?_, ?_⟩
  · intro ff rest hv hfront hback
    have hclass : classifyData v = DataClass.flashcards := by
      subst hv
      simp [classifyData, dictHas_nonempty ff "front" hfront, hfront, hback]
    simp only [hclass] at hcl
    rw [hcl]
    refine ⟨?_, ?_, ?_⟩
    · rw [dictGet_del_ne _ "flashcards" "data" (by decide), dictGet_set_self]
    · rw [dictHas_del_self]
    · intro k hk hkfc
      rw [dictGet_del_ne _ k "data" hk, dictGet_set_ne _ k "flashcards" v hkfc]
  · intro ff rest hv hnofb hname
    have hclass : classifyData v = DataClass.decks := by
      subst hv
      simp [classifyData, dictHas_nonempty ff "name" hname, hnofb, hname]
    simp only [hclass] at hcl
    rw [hcl]
    refine ⟨?_, ?_, ?_⟩
    · rw [dictGet_del_ne _ "decks" "data" (by decide), dictGet_set_self]
    · rw [dictHas_del_self]
    · intro k hk hkdk
      rw [dictGet_del_ne _ k "data" hk, dictGet_set_ne _ k "decks" v hkdk]
  · intro hkeep
    simp only [hkeep] at hcl
    exact hcl

/-- Witness for the classification theorem: a concrete envelope whose `data`
array holds one flashcard-shaped element is re-exposed under `flashcards`,
`data` is removed, and the unrelated `success` key is preserved. -/
theorem normalize_response_classification_witness :
    dictGet (BaseService.normalize_response
        [("success", JVal.bool true),
         ("data", JVal.arr [JVal.obj [("front", JVal.str "q"), ("back", JVal.str "a")]])])
      "flashcards"
      = some (JVal.arr [JVal.obj [("front", JVal.str "q"), ("back", JVal.str "a")]])
    ∧ dictHas (BaseService.normalize_response
        [("success", JVal.bool true),
         ("data", JVal.arr [JVal.obj [("front", JVal.str "q"), ("back", JVal.str "a")]])])
      "data" = false
    ∧ dictGet (BaseService.normalize_response
        [("success", JVal.bool true),
         ("data", JVal.arr [JVal.obj [("front", JVal.str "q"), ("back", JVal.str "a")]])])
      "success" = dictGet
        [("success", JVal.bool true),
         ("data", JVal.arr [JVal.obj [("front", JVal.str "q"), ("back", JVal.str "a")]])]
      "success" := by
  have h := (normalize_response_classification
    [("success", JVal.bool true),
     ("data", JVal.arr [JVal.obj [("front", JVal.str "q"), ("back", JVal.str "a")]])]
    (JVal.arr [JVal.obj [("front", JVal.str "q"), ("back", JVal.str "a")]])
    rfl rfl rfl).1
    [("front", JVal.str "q"), ("back", JVal.str "a")] [] rfl rfl rfl
  exact ⟨h.1, h.2.1, h.2.2 "success" (by decide) (by decide)⟩

/-! ## Resilient request executor (`IcardsApiAdapter._make_request`) -/

/-- Outcome of one HTTP attempt, as observed by the `try` body of
`_make_request`: a response that passed `raise_for_status` — carrying the
status code and, as `body`, the outcome of `response.json()` (`ok` the
parsed value, `error` a `json.JSONDecodeError` message; the body is only
consulted for non-204 responses) — an `httpx.HTTPStatusError` (status code
and response text), or an `httpx.RequestError` (connection/timeout
failure). -/
inductive AttemptOutcome where
  | success (status : Nat) (body : Except String JVal)
  | statusError (status : Nat) (text : String)
  | requestError (msg : String)

/-- A raised Python exception, as propagated out of `_make_request`:
`Exception(msg)`, a re-raised `httpx.HTTPStatusError`, a
`json.JSONDecodeError` from `response.json()` (re-raised by the final
`except Exception` handler), or a `ValueError`. -/
inductive PyError where
  | exc (msg : String)
  | httpStatusError (status : Nat) (text : String)
  | jsonDecodeError (msg : String)
  | valueError (msg : String)

/-- Result of running `_make_request` against an attempt oracle: the
returned value or raised exception, the number of HTTP requests performed,
and the sleep durations in seconds, in order. -/
structure ExecResult where
  result : Except PyError Dict
  attempts : Nat
  delays : List ℚ

namespace IcardsApiAdapter

/-- `self.max_retries = 3` (icards_api_adapter.py line 63). -/
def max_retries : Nat := 3

/-- `self.retry_delay = 1.0` seconds (icards_api_adapter.py line 64). -/
def retry_delay : ℚ := 1

/-- `IcardsApiAdapter._normalize_response` (icards_api_adapter.py lines
186-206): a dict passes through, a list is wrapped as items/count, any
other value is wrapped under `data`. -/
def _normalize_response : JVal → Dict
  | JVal.obj fields => fields
  | JVal.arr items => [("items", JVal.arr items), ("count", JVal.num items.length)]
  | v => [("data", v)]

/-- The `for attempt in range(self.max_retries)` loop of `_make_request`
(icards_api_adapter.py lines 115-184), with the outcome of the i-th HTTP
attempt supplied by `oracle i`.  Valid methods issue the request; a 204
returns `{success: true}` before the body is read, any other completed
response has `response.json()` consulted — a parsed body is normalized and
returned, a decode failure raises and is re-raised by the final
`except Exception` handler; 401/403/404/422 raise immediately with fixed
messages; 5xx and connection failures retry with a
`retry_delay * (attempt + 1)` sleep until the attempt budget is spent;
other HTTP errors re-raise. -/
def _make_request_loop (methodValid : Bool) (oracle : Nat → AttemptOutcome)
    (maxRetries : Nat) (retryDelay : ℚ) (attempt : Nat) : ExecResult :=
  if _h : attempt < maxRetries then
    if methodValid then
      match oracle attempt with
      | AttemptOutcome.success status body =>
        if status = 204 then
          { result := Except.ok [("success", JVal.bool true)],
            attempts := attempt + 1, delays := [] }
        else
          match body with
          | Except.ok v =>
            { result := Except.ok (_normalize_response v),
              attempts := attempt + 1, delays := [] }
          | Except.error e =>
            { result := Except.error (PyError.jsonDecodeError e),
              attempts := attempt + 1, delays := [] }
      | AttemptOutcome.statusError status text =>
        if status = 401 then
          { result := Except.error (PyError.exc "Authentication required"),
            attempts := attempt + 1, delays := [] }
        else if status = 403 then
          { result := Except.error (PyError.exc "Access denied"),
            attempts := attempt + 1, delays := [] }
        else if status = 404 then
          { result := Except.error (PyError.exc "Resource not found"),
            attempts := attempt + 1, delays := [] }
        else if status = 422 then
          { result := Except.error (PyError.exc "Invalid request data"),
            attempts := attempt + 1, delays := [] }
        else if 500 ≤ status then
          if attempt < maxRetries - 1 then
            let rest := _make_request_loop methodValid oracle maxRetries retryDelay
              (attempt + 1)
            { result := rest.result, attempts := rest.attempts,
              delays := retryDelay * ((attempt : ℚ) + 1) :: rest.delays }
          else
            { result := Except.error (PyError.exc "Server error"),
              attempts := attempt + 1, delays := [] }
        else
          { result := Except.error (PyError.httpStatusError status text),
            attempts := attempt + 1, delays := [] }
      | AttemptOutcome.requestError msg =>
        if attempt < maxRetries - 1 then
          let rest := _make_request_loop methodValid oracle maxRetries retryDelay
            (attempt + 1)
          { result := rest.result, attempts := rest.attempts,
            delays := retryDelay * ((attempt : ℚ) + 1) :: rest.delays }
        else
          { result := Except.error (PyError.exc "Network error"),
            attempts := attempt + 1, delays := [] }
    else
      { result := Except.error (PyError.valueError "Unsupported HTTP method"),
        attempts := attempt, delays := [] }
  else
    { result := Except.error (PyError.exc "Request failed after all retries"),
      attempts := attempt, delays := [] }
termination_by maxRetries - attempt
decreasing_by all_goals omega

/-- Shallow embedding of `IcardsApiAdapter._make_request` (lines 87-184):
dispatch on the HTTP method, then run the retry loop from attempt 0. -/
def _make_request (method : String) (oracle : Nat → AttemptOutcome)
    (maxRetries : Nat) (retryDelay : ℚ) : ExecResult :=
  _make_request_loop
    (pyUpper method == "GET" || pyUpper method == "POST"
      || pyUpper method == "PUT" || pyUpper method == "DELETE")
    oracle maxRetries retryDelay 0

end IcardsApiAdapter

/-- An attempt outcome of the retryable class: an HTTP status of 500 or
above, or a connection/timeout failure. -/
def AttemptOutcome.retryable : AttemptOutcome → Bool
  | AttemptOutcome.statusError status _ => 500 ≤ status
  | AttemptOutcome.requestError _ => true
  | AttemptOutcome.success _ _ => false

/-! ### Executor behaviour -/

theorem make_request_loop_retry_step (oracle : Nat → AttemptOutcome)
    (maxRetries : Nat) (q : ℚ) (attempt : Nat)
    (hstep : attempt < maxRetries - 1)
    (hre : (oracle attempt).retryable = true) :
    IcardsApiAdapter._make_request_loop true oracle maxRetries q attempt
      = { result := (IcardsApiAdapter._make_request_loop true oracle maxRetries q
            (attempt + 1)).result,
          attempts := (IcardsApiAdapter._make_request_loop true oracle maxRetries q
            (attempt + 1)).attempts,
          delays := q * ((attempt : ℚ) + 1)
            :: (IcardsApiAdapter._make_request_loop true oracle maxRetries q
              (attempt + 1)).delays } := by
  have hlt : attempt < maxRetries := by omega
  rw [IcardsApiAdapter._make_request_loop]
  rw [dif_pos hlt, if_pos rfl]
  cases horacle : oracle attempt with
  | success status body =>
    rw [horacle] at hre
    simp [AttemptOutcome.retryable] at hre
  | statusError status text =>
    rw [horacle] at hre
    have h500 : 500 ≤ status := by
      simpa [AttemptOutcome.retryable] using hre
    dsimp only
    rw [if_neg (by omega : ¬status = 401), if_neg (by omega : ¬status = 403),
      if_neg (by omega : ¬status = 404), if_neg (by omega : ¬status = 422),
      if_pos h500, if_pos hstep]
  | requestError msg =>
    dsimp only
    rw [if_pos hstep]

theorem make_request_loop_last (oracle : Nat → AttemptOutcome)
    (maxRetries : Nat) (q : ℚ) (attempt : Nat)
    (hlt : attempt < maxRetries) (hlast : ¬attempt < maxRetries - 1)
    (hre : (oracle attempt).retryable = true) :
    IcardsApiAdapter._make_request_loop true oracle maxRetries q attempt
      = { result := Except.error (PyError.exc
            (match oracle attempt with
             | AttemptOutcome.requestError _ => "Network error"
             | _ => "Server error")),
          attempts := attempt + 1, delays := [] } := by
  rw [IcardsApiAdapter._make_request_loop]
  rw [dif_pos hlt, if_pos rfl]
  cases horacle : oracle attempt with
  | success status body =>
    rw [horacle] at hre
    simp [AttemptOutcome.retryable] at hre
  | statusError status text =>
    rw [horacle] at hre
    have h500 : 500 ≤ status := by
      simpa [AttemptOutcome.retryable] using hre
    dsimp only
    rw [if_neg (by omega : ¬status = 401), if_neg (by omega : ¬status = 403),
      if_neg (by omega : ¬status = 404), if_neg (by omega : ¬status = 422),
      if_pos h500, if_neg hlast]
  | requestError msg =>
    dsimp only
    rw [if_neg hlast]

/-- C3: Retry bound and linear backoff: when every attempt fails with a
retryable class (HTTP status 500 or above, or a connection/timeout
failure), the executor performs exactly 3 HTTP attempts, sleeping
`retry_delay * attemptNumber` before each retry (non-decreasing delays),
and finally raises the fatal class of the last attempt (`Server error` for
a 5xx, `Network error` for a connection failure). -/
theorem make_request_retry_bound (method : String)
    (oracle : Nat → AttemptOutcome) (q : ℚ)
    (hmethod : (pyUpper method == "GET" || pyUpper method == "POST"
      || pyUpper method == "PUT" || pyUpper method == "DELETE") = true)
    (hre : ∀ i, i < IcardsApiAdapter.max_retries → (oracle i).retryable = true)
    (hq : 0 ≤ q) :
    (IcardsApiAdapter._make_request method oracle
        IcardsApiAdapter.max_retries q).attempts = IcardsApiAdapter.max_retries
    ∧ (IcardsApiAdapter._make_request method oracle
        IcardsApiAdapter.max_retries q).delays = [q * 1, q * 2]
    ∧ List.Chain' (· ≤ ·) (IcardsApiAdapter._make_request method oracle
        IcardsApiAdapter.max_retries q).delays
    ∧ (∀ st txt, oracle 2 = AttemptOutcome.statusError st txt →
        (IcardsApiAdapter._make_request method oracle
          IcardsApiAdapter.max_retries q).result
          = Except.error (PyError.exc "Server error"))
    ∧ (∀ msg, oracle 2 = AttemptOutcome.requestError msg →
        (IcardsApiAdapter._make_request method oracle
          IcardsApiAdapter.max_retries q).result
          = Except.error (PyError.exc "Network error")) := by
  simp only [IcardsApiAdapter.max_retries] at hre ⊢
  have hrun : IcardsApiAdapter._make_request method oracle 3 q
      = IcardsApiAdapter._make_request_loop true oracle 3 q 0 := by
    unfold IcardsApiAdapter._make_request
    rw [hmethod]
  have e0 := make_request_loop_retry_step oracle 3 q 0 (by omega)
    (hre 0 (by omega))
  have e1 := make_request_loop_retry_step oracle 3 q 1 (by omega)
    (hre 1 (by omega))
  have e2 := make_request_loop_last oracle 3 q 2 (by omega) (by omega)
    (hre 2 (by omega))
  rw [hrun, e0, e1, e2]
  refine ⟨rfl, ?_, ?_, ?_, ?_⟩
  · norm_num
  · simp only [List.chain'_cons, List.chain'_singleton, and_true]
    push_cast
    linarith
  · intro st txt h
    simp only [h]
  · intro msg h
    simp only [h]

/-- Witness for the retry bound: a request whose every attempt times out
performs exactly 3 attempts, sleeps 1 s then 2 s, and raises
`Network error`. -/
theorem make_request_retry_bound_witness :
    (IcardsApiAdapter._make_request "GET"
        (fun _ => AttemptOutcome.requestError "timeout")
        IcardsApiAdapter.max_retries 1).attempts = IcardsApiAdapter.max_retries
    ∧ (IcardsApiAdapter._make_request "GET"
        (fun _ => AttemptOutcome.requestError "timeout")
        IcardsApiAdapter.max_retries 1).delays = [1 * 1, 1 * 2]
    ∧ (IcardsApiAdapter._make_request "GET"
        (fun _ => AttemptOutcome.requestError "timeout")
        IcardsApiAdapter.max_retries 1).result
        = Except.error (PyError.exc "Network error") := by
  have h := make_request_retry_bound "GET"
    (fun _ => AttemptOutcome.requestError "timeout") 1 rfl
    (fun i _ => rfl) (by norm_num)
  exact ⟨h.1, h.2.1, h.2.2.2.2 "timeout" rfl⟩

theorem make_request_loop_fatal_4xx (oracle : Nat → AttemptOutcome)
    (maxRetries : Nat) (q : ℚ) (attempt : Nat) (hlt : attempt < maxRetries)
    (status : Nat) (txt : String)
    (horacle : oracle attempt = AttemptOutcome.statusError status txt) :
    (status = 401 →
      IcardsApiAdapter._make_request_loop true oracle maxRetries q attempt
        = { result := Except.error (PyError.exc "Authentication required"),
            attempts := attempt + 1, delays := [] })
    ∧ (status = 422 →
      IcardsApiAdapter._make_request_loop true oracle maxRetries q attempt
        = { result := Except.error (PyError.exc "Invalid request data"),
            attempts := attempt + 1, delays := [] }) := by
  constructor
  · intro h401
    subst h401
    rw [IcardsApiAdapter._make_request_loop, dif_pos hlt, if_pos rfl, horacle]
    dsimp only
    rw [if_pos rfl]
  · intro h422
    subst h422
    rw [IcardsApiAdapter._make_request_loop, dif_pos hlt, if_pos rfl, horacle]
    dsimp only
    rw [if_neg (by omega : ¬(422 : Nat) = 401),
      if_neg (by omega : ¬(422 : Nat) = 403),
      if_neg (by omega : ¬(422 : Nat) = 404), if_pos rfl]

/-- C9 (amended): a 422 upstream response is fatal and final: the executor
performs exactly one HTTP attempt, sleeps never, and raises the
Validation-class error with the fixed message `Invalid request data`; the
upstream response text is only logged, not passed through. -/
theorem make_request_422_final (method : String)
    (oracle : Nat → AttemptOutcome) (txt : String) (q : ℚ)
    (hmethod : (pyUpper method == "GET" || pyUpper method == "POST"
      || pyUpper method == "PUT" || pyUpper method == "DELETE") = true)
    (h422 : oracle 0 = AttemptOutcome.statusError 422 txt) :
    (IcardsApiAdapter._make_request method oracle
        IcardsApiAdapter.max_retries q).attempts = 1
    ∧ (IcardsApiAdapter._make_request method oracle
        IcardsApiAdapter.max_retries q).result
        = Except.error (PyError.exc "Invalid request data")
    ∧ (IcardsApiAdapter._make_request method oracle
        IcardsApiAdapter.max_retries q).delays = [] := by
  have hrun : IcardsApiAdapter._make_request method oracle
      IcardsApiAdapter.max_retries q
      = IcardsApiAdapter._make_request_loop true oracle
        IcardsApiAdapter.max_retries q 0 := by
    unfold IcardsApiAdapter._make_request
    rw [hmethod]
  have h := (make_request_loop_fatal_4xx oracle IcardsApiAdapter.max_retries q 0
    (by simp [IcardsApiAdapter.max_retries]) 422 txt h422).2 rfl
  rw [hrun, h]
  exact ⟨rfl, rfl, rfl⟩

/-- Witness for the amended 422 behaviour at a concrete request. -/
theorem make_request_422_final_witness :
    (IcardsApiAdapter._make_request "POST"
        (fun _ => AttemptOutcome.statusError 422 "front must not be empty")
        IcardsApiAdapter.max_retries IcardsApiAdapter.retry_delay).attempts = 1
    ∧ (IcardsApiAdapter._make_request "POST"
        (fun _ => AttemptOutcome.statusError 422 "front must not be empty")
        IcardsApiAdapter.max_retries IcardsApiAdapter.retry_delay).result
        = Except.error (PyError.exc "Invalid request data")
    ∧ (IcardsApiAdapter._make_request "POST"
        (fun _ => AttemptOutcome.statusError 422 "front must not be empty")
        IcardsApiAdapter.max_retries IcardsApiAdapter.retry_delay).delays = [] :=
  make_request_422_final "POST"
    (fun _ => AttemptOutcome.statusError 422 "front must not be empty")
    "front must not be empty" IcardsApiAdapter.retry_delay (by decide) rfl

/-- C9 counterexample: for a 422 response carrying the upstream text
`front must not be empty`, the executor raises the fixed message
`Invalid request data`; the upstream message is not passed through
verbatim. -/
theorem make_request_422_message_cex :
    (IcardsApiAdapter._make_request "POST"
        (fun _ => AttemptOutcome.statusError 422 "front must not be empty")
        IcardsApiAdapter.max_retries IcardsApiAdapter.retry_delay).result
      = Except.error (PyError.exc "Invalid request data")
    ∧ PyError.exc "Invalid request data"
      ≠ PyError.exc "front must not be empty" := by
  constructor
  · have hrun : IcardsApiAdapter._make_request "POST"
        (fun _ => AttemptOutcome.statusError 422 "front must not be empty")
        IcardsApiAdapter.max_retries IcardsApiAdapter.retry_delay
        = IcardsApiAdapter._make_request_loop true
          (fun _ => AttemptOutcome.statusError 422 "front must not be empty")
          IcardsApiAdapter.max_retries IcardsApiAdapter.retry_delay 0 := by
      unfold IcardsApiAdapter._make_request
      rw [show (pyUpper "POST" == "GET" || pyUpper "POST" == "POST"
        || pyUpper "POST" == "PUT" || pyUpper "POST" == "DELETE") = true from by decide]
    have h := (make_request_loop_fatal_4xx
      (fun _ => AttemptOutcome.statusError 422 "front must not be empty")
      IcardsApiAdapter.max_retries IcardsApiAdapter.retry_delay 0
      (by simp [IcardsApiAdapter.max_retries]) 422 "front must not be empty" rfl).2 rfl
    rw [hrun, h]
  · intro hcontra
    have : "Invalid request data" = "front must not be empty" :=
      PyError.exc.inj hcontra
    exact absurd this (by decide)

/-- C4 counterexample: for an upstream 401 response, `_make_request` raises
`Exception("Authentication required")` to its direct caller: the terminal
outcome is a raised fault, not a returned typed value. -/
theorem make_request_raises_cex :
    (IcardsApiAdapter._make_request "GET"
        (fun _ => AttemptOutcome.statusError 401 "Unauthorized")
        IcardsApiAdapter.max_retries IcardsApiAdapter.retry_delay).result
      = Except.error (PyError.exc "Authentication required") := by
  have hrun : IcardsApiAdapter._make_request "GET"
      (fun _ => AttemptOutcome.statusError 401 "Unauthorized")
      IcardsApiAdapter.max_retries IcardsApiAdapter.retry_delay
      = IcardsApiAdapter._make_request_loop true
        (fun _ => AttemptOutcome.statusError 401 "Unauthorized")
        IcardsApiAdapter.max_retries IcardsApiAdapter.retry_delay 0 := by
    unfold IcardsApiAdapter._make_request
    rw [show (pyUpper "GET" == "GET" || pyUpper "GET" == "POST"
      || pyUpper "GET" == "PUT" || pyUpper "GET" == "DELETE") = true from by decide]
  have h := (make_request_loop_fatal_4xx
    (fun _ => AttemptOutcome.statusError 401 "Unauthorized")
    IcardsApiAdapter.max_retries IcardsApiAdapter.retry_delay 0
    (by simp [IcardsApiAdapter.max_retries]) 401 "Unauthorized" rfl).1 rfl
  rw [hrun, h]

/-- C4 (amended): `_make_request` does not return typed error values:
every terminal failure is propagated to the direct caller as a raised
exception — the fixed-message `Exception` for a 401/403/404/422 response,
the re-raised `httpx.HTTPStatusError` for any other non-5xx HTTP error,
and the re-raised `json.JSONDecodeError` for a non-204 response whose
body fails to parse — while only successful outcomes return a value:
`{success: true}` for a 204, and the normalized envelope for a parsed
body.  (Exhausted 5xx/network retries likewise raise, per the retry-bound
theorem; the structured error objects promised to callers are built by
the tool layer, which catches these exceptions.) -/
theorem make_request_failures_raised (method : String)
    (oracle : Nat → AttemptOutcome) (q : ℚ)
    (hmethod : (pyUpper method == "GET" || pyUpper method == "POST"
      || pyUpper method == "PUT" || pyUpper method == "DELETE") = true) :
    (∀ txt, oracle 0 = AttemptOutcome.statusError 401 txt →
      (IcardsApiAdapter._make_request method oracle
        IcardsApiAdapter.max_retries q).result
        = Except.error (PyError.exc "Authentication required"))
    ∧ (∀ txt, oracle 0 = AttemptOutcome.statusError 403 txt →
      (IcardsApiAdapter._make_request method oracle
        IcardsApiAdapter.max_retries q).result
        = Except.error (PyError.exc "Access denied"))
    ∧ (∀ txt, oracle 0 = AttemptOutcome.statusError 404 txt →
      (IcardsApiAdapter._make_request method oracle
        IcardsApiAdapter.max_retries q).result
        = Except.error (PyError.exc "Resource not found"))
    ∧ (∀ txt, oracle 0 = AttemptOutcome.statusError 422 txt →
      (IcardsApiAdapter._make_request method oracle
        IcardsApiAdapter.max_retries q).result
        = Except.error (PyError.exc "Invalid request data"))
    ∧ (∀ st txt, oracle 0 = AttemptOutcome.statusError st txt →
      ¬st = 401 → ¬st = 403 → ¬st = 404 → ¬st = 422 → ¬500 ≤ st →
      (IcardsApiAdapter._make_request method oracle
        IcardsApiAdapter.max_retries q).result
        = Except.error (PyError.httpStatusError st txt))
    ∧ (∀ st e, oracle 0 = AttemptOutcome.success st (Except.error e) →
      ¬st = 204 →
      (IcardsApiAdapter._make_request method oracle
        IcardsApiAdapter.max_retries q).result
        = Except.error (PyError.jsonDecodeError e))
    ∧ (∀ st v, oracle 0 = AttemptOutcome.success st (Except.ok v) →
      ¬st = 204 →
      (IcardsApiAdapter._make_request method oracle
        IcardsApiAdapter.max_retries q).result
        = Except.ok (IcardsApiAdapter._normalize_response v))
    ∧ (∀ b, oracle 0 = AttemptOutcome.success 204 b →
      (IcardsApiAdapter._make_request method oracle
        IcardsApiAdapter.max_retries q).result
        = Except.ok [("success", JVal.bool true)]) := by
  have hrun : IcardsApiAdapter._make_request method oracle
      IcardsApiAdapter.max_retries q
      = IcardsApiAdapter._make_request_loop true oracle
        IcardsApiAdapter.max_retries q 0 := by
    unfold IcardsApiAdapter._make_request
    rw [hmethod]
  have hlt : 0 < IcardsApiAdapter.max_retries := by
    simp [IcardsApiAdapter.max_retries]
  refine ⟨?_, ?_, ?_, ?_, ?_, ?_, ?_, ?_⟩
  · intro txt h
    rw [hrun, IcardsApiAdapter._make_request_loop, dif_pos hlt, if_pos rfl, h]
    dsimp only
    rw [if_pos rfl]
  · intro txt h
    rw [hrun, IcardsApiAdapter._make_request_loop, dif_pos hlt, if_pos rfl, h]
    dsimp only
    rw [if_neg (by omega : ¬(403 : Nat) = 401), if_pos rfl]
  · intro txt h
    rw [hrun, IcardsApiAdapter._make_request_loop, dif_pos hlt, if_pos rfl, h]
    dsimp only
    rw [if_neg (by omega : ¬(404 : Nat) = 401),
      if_neg (by omega : ¬(404 : Nat) = 403), if_pos rfl]
  · intro txt h
    rw [hrun, IcardsApiAdapter._make_request_loop, dif_pos hlt, if_pos rfl, h]
    dsimp only
    rw [if_neg (by omega : ¬(422 : Nat) = 401),
      if_neg (by omega : ¬(422 : Nat) = 403),
      if_neg (by omega : ¬(422 : Nat) = 404), if_pos rfl]
  · intro st txt h h401 h403 h404 h422 h500
    rw [hrun, IcardsApiAdapter._make_request_loop, dif_pos hlt, if_pos rfl, h]
    dsimp only
    rw [if_neg h401, if_neg h403, if_neg h404, if_neg h422, if_neg h500]
  · intro st e h h204
    rw [hrun, IcardsApiAdapter._make_request_loop, dif_pos hlt, if_pos rfl, h]
    dsimp only
    rw [if_neg h204]
  · intro st v h h204
    rw [hrun, IcardsApiAdapter._make_request_loop, dif_pos hlt, if_pos rfl, h]
    dsimp only
    rw [if_neg h204]
  · intro b h
    rw [hrun, IcardsApiAdapter._make_request_loop, dif_pos hlt, if_pos rfl, h]
    dsimp only
    rw [if_pos rfl]

/-- Witness for the amended raise-on-failure behaviour at concrete inputs:
a 401 raises the fixed authentication exception, a 200 whose body fails
JSON decoding raises the decode error, and a 200 with a parsed body
returns the normalized envelope. -/
theorem make_request_failures_raised_witness :
    (IcardsApiAdapter._make_request "GET"
        (fun _ => AttemptOutcome.statusError 401 "Unauthorized")
        IcardsApiAdapter.max_retries IcardsApiAdapter.retry_delay).result
      = Except.error (PyError.exc "Authentication required")
    ∧ (IcardsApiAdapter._make_request "GET"
        (fun _ => AttemptOutcome.success 200 (Except.error "Expecting value"))
        IcardsApiAdapter.max_retries IcardsApiAdapter.retry_delay).result
      = Except.error (PyError.jsonDecodeError "Expecting value")
    ∧ (IcardsApiAdapter._make_request "GET"
        (fun _ => AttemptOutcome.success 200
          (Except.ok (JVal.obj [("success", JVal.bool true)])))
        IcardsApiAdapter.max_retries IcardsApiAdapter.retry_delay).result
      = Except.ok (IcardsApiAdapter._normalize_response
          (JVal.obj [("success", JVal.bool true)])) :=
  ⟨(make_request_failures_raised "GET"
      (fun _ => AttemptOutcome.statusError 401 "Unauthorized")
      IcardsApiAdapter.retry_delay (by decide)).1 "Unauthorized" rfl,
    (make_request_failures_raised "GET"
      (fun _ => AttemptOutcome.success 200 (Except.error "Expecting value"))
      IcardsApiAdapter.retry_delay (by decide)).2.2.2.2.2.1 200
      "Expecting value" rfl (by omega),
    (make_request_failures_raised "GET"
      (fun _ => AttemptOutcome.success 200
        (Except.ok (JVal.obj [("success", JVal.bool true)])))
      IcardsApiAdapter.retry_delay (by decide)).2.2.2.2.2.2.1 200
      (JVal.obj [("success", JVal.bool true)]) rfl (by omega)⟩

/-! ## Bulk tag-assignment engine (`assign_tags_to_flashcards`) -/

/-- The fields of a flashcard record as read from
`flashcard_data.get("data", {})` in the per-item loop; any field may be
absent from the raw payload, and `tagId` is also nullable. -/
structure FlashcardInfo where
  front : Option String
  back : Option String
  difficulty : Option Int
  deckId : Option Int
  tagId : Option Int
deriving DecidableEq

/-- The flashcard service operations used by the per-item loop, over an
abstract backend state `σ`: `get_flashcard` yields the `data` payload
(`none` when missing or empty) or raises; `update_flashcard` writes the
record, yielding the new backend state, or raises. -/
structure FlashcardServiceModel (σ : Type) where
  get_flashcard : σ → Int → Except String (Option FlashcardInfo)
  update_flashcard : σ → Int → FlashcardInfo → Except String σ

/-- Per-item outcome of the loop body. -/
inductive ItemOutcome where
  | updated
  | skipped
  | failed (reason : String)
deriving DecidableEq

/-- The `update_data` payload built at tools.py lines 1156-1162: carry the
current front/back/difficulty forward (with the dict-get defaults) and set
the target deck and tag ids. -/
def update_data (info : FlashcardInfo) (deck_id tag_id : Int) : FlashcardInfo :=
  { front := some (info.front.getD "")
    back := some (info.back.getD "")
    difficulty := some (info.difficulty.getD 2)
    deckId := some deck_id
    tagId := some tag_id }

/-- One iteration of the `for flashcard_id in flashcard_ids` loop of
`assign_tags_to_flashcards` (tools.py lines 1108-1168): re-fetch the
record, fail the item when it is missing or belongs to another deck, skip
when its tag already equals the resolved tag id, otherwise update; a raise
from either service call marks the item failed with the error text. -/
def process_flashcard {σ : Type} (svc : FlashcardServiceModel σ)
    (deck_name : String) (deck_id tag_id : Int) (s : σ) (flashcard_id : Int) :
    ItemOutcome × σ :=
  match svc.get_flashcard s flashcard_id with
  | Except.error e => (ItemOutcome.failed e, s)
  | Except.ok none => (ItemOutcome.failed "Flashcard not found", s)
  | Except.ok (some info) =>
    if info.deckId ≠ some deck_id then
      (ItemOutcome.failed ("Flashcard does not belong to deck " ++ deck_name), s)
    else if info.tagId = some tag_id then
      (ItemOutcome.skipped, s)
    else
      match svc.update_flashcard s flashcard_id (update_data info deck_id tag_id) with
      | Except.error e => (ItemOutcome.failed e, s)
      | Except.ok s2 => (ItemOutcome.updated, s2)

/-- The loop counters of `assign_tags_to_flashcards`: `success_count`,
`skipped_count` and the `failed_flashcards` list of (id, reason) pairs, in
processing order. -/
structure BatchCounts where
  success_count : Nat
  skipped_count : Nat
  failed_flashcards : List (Int × String)
deriving DecidableEq

/-- The whole per-item loop: process the selected ids in order, threading
the backend state, and accumulate the counters. -/
def process_flashcards {σ : Type} (svc : FlashcardServiceModel σ)
    (deck_name : String) (deck_id tag_id : Int) :
    σ → List Int → BatchCounts × σ
  | s, [] => ({ success_count := 0, skipped_count := 0, failed_flashcards := [] }, s)
  | s, fid :: rest =>
    let r := process_flashcard svc deck_name deck_id tag_id s fid
    let rr := process_flashcards svc deck_name deck_id tag_id r.2 rest
    match r.1 with
    | ItemOutcome.updated =>
      ({ rr.1 with success_count := rr.1.success_count + 1 }, rr.2)
    | ItemOutcome.skipped =>
      ({ rr.1 with skipped_count := rr.1.skipped_count + 1 }, rr.2)
    | ItemOutcome.failed reason =>
      ({ rr.1 with failed_flashcards := (fid, reason) :: rr.1.failed_flashcards }, rr.2)

/-- The result fields reported by `assign_tags_to_flashcards` (tools.py
lines 1170-1186): `failed_assignments` and the bounded `failures` sample
(first 5) are added only when some item failed. -/
structure AssignResult where
  flashcard_ids_requested : Nat
  successful_assignments : Nat
  skipped_already_tagged : Nat
  failed_assignments : Option Nat
  failures : List (Int × String)

/-- Assembly of the reported result from the loop counters. -/
def assign_result (flashcard_ids : List Int) (c : BatchCounts) : AssignResult :=
  { flashcard_ids_requested := flashcard_ids.length
    successful_assignments := c.success_count
    skipped_already_tagged := c.skipped_count
    failed_assignments :=
      if c.failed_flashcards.isEmpty then none else some c.failed_flashcards.length
    failures := c.failed_flashcards.take 5 }

/-- The `flashcard_ids` size validation of `assign_tags_to_flashcards`
(tools.py lines 1043-1047): `if not flashcard_ids or len(flashcard_ids) > 50`
rejects the request on size grounds. -/
def flashcard_ids_rejected (flashcard_ids : List Int) : Bool :=
  flashcard_ids.isEmpty || decide (flashcard_ids.length > 50)

theorem process_flashcards_conservation {σ : Type}
    (svc : FlashcardServiceModel σ) (deck_name : String) (deck_id tag_id : Int)
    (s : σ) (flashcard_ids : List Int) :
    (process_flashcards svc deck_name deck_id tag_id s flashcard_ids).1.success_count
      + (process_flashcards svc deck_name deck_id tag_id s flashcard_ids).1.skipped_count
      + (process_flashcards svc deck_name deck_id tag_id s
          flashcard_ids).1.failed_flashcards.length
      = flashcard_ids.length := by
  induction flashcard_ids generalizing s with
  | nil => rfl
  | cons fid rest ih =>
    show (process_flashcards svc deck_name deck_id tag_id s (fid :: rest)).1.success_count
        + _ + _ = rest.length + 1
    rw [process_flashcards]
    cases hout : (process_flashcard svc deck_name deck_id tag_id s fid).1 with
    | updated =>
      dsimp only
      have := ih ((process_flashcard svc deck_name deck_id tag_id s fid).2)
      omega
    | skipped =>
      dsimp only
      have := ih ((process_flashcard svc deck_name deck_id tag_id s fid).2)
      omega
    | failed reason =>
      dsimp only
      have := ih ((process_flashcard svc deck_name deck_id tag_id s fid).2)
      simp only [List.length_cons]
      omega

/-- C1: Aggregation conservation: however each item fares (updated,
skipped, failed by precondition or failed by raise — the service behaviour
is arbitrary), the reported counts satisfy
`successful_assignments + skipped_already_tagged + failed_assignments
 = flashcard_ids_requested`. -/
theorem assign_tags_conservation {σ : Type}
    (svc : FlashcardServiceModel σ) (deck_name : String) (deck_id tag_id : Int)
    (s : σ) (flashcard_ids : List Int) :
    (assign_result flashcard_ids
        (process_flashcards svc deck_name deck_id tag_id s
          flashcard_ids).1).successful_assignments
      + (assign_result flashcard_ids
          (process_flashcards svc deck_name deck_id tag_id s
            flashcard_ids).1).skipped_already_tagged
      + ((assign_result flashcard_ids
          (process_flashcards svc deck_name deck_id tag_id s
            flashcard_ids).1).failed_assignments).getD 0
      = (assign_result flashcard_ids
          (process_flashcards svc deck_name deck_id tag_id s
            flashcard_ids).1).flashcard_ids_requested := by
  have h := process_flashcards_conservation svc deck_name deck_id tag_id s
    flashcard_ids
  unfold assign_result
  dsimp only
  by_cases hf : (process_flashcards svc deck_name deck_id tag_id s
      flashcard_ids).1.failed_flashcards.isEmpty = true
  · rw [if_pos hf]
    have : (process_flashcards svc deck_name deck_id tag_id s
        flashcard_ids).1.failed_flashcards.length = 0 := by
      rw [List.isEmpty_iff] at hf
      rw [hf]
      rfl
    simp only [Option.getD_none]
    omega
  · rw [if_neg hf]
    simp only [Option.getD_some]
    omega

/-- C10 counterexample: a list of exactly 100 flashcard ids is rejected on
size grounds by `assign_tags_to_flashcards`, although the claim says lists
of up to 100 ids are accepted. -/
theorem flashcard_ids_limit_cex :
    flashcard_ids_rejected (List.replicate 100 (0 : Int)) = true
    ∧ (List.replicate 100 (0 : Int)).length = 100 := by
  constructor
  · decide
  · decide

/-- C10 (amended): the explicit-ID selection accepts between 1 and 50 ids:
a request is not rejected on size grounds exactly when the id list has
length 1 to 50. -/
theorem flashcard_ids_limit (flashcard_ids : List Int) :
    flashcard_ids_rejected flashcard_ids = false
      ↔ (1 ≤ flashcard_ids.length ∧ flashcard_ids.length ≤ 50) := by
  unfold flashcard_ids_rejected
  rw [Bool.or_eq_false_iff]
  rw [List.isEmpty_eq_false_iff_exists_mem]
  constructor
  · intro ⟨hne, hle⟩
    have : ¬flashcard_ids.length > 50 := of_decide_eq_false hle
    obtain ⟨x, hx⟩ := hne
    have : 0 < flashcard_ids.length := List.length_pos_of_mem hx
    omega
  · intro ⟨h1, h50⟩
    constructor
    · obtain ⟨x, hx⟩ := List.exists_mem_of_length_pos (l := flashcard_ids) (by omega)
      exact ⟨x, hx⟩
    · have hnot : ¬flashcard_ids.length > 50 := by omega
      exact decide_eq_false hnot

/-! ### Idempotence over a key-value backend -/

/-- The remote flashcard store behind the service.  The backend is an
opaque external REST collaborator of this repository; it is modelled by
the key-value contract the engine relies on: `GET` returns what the last
`PUT` wrote. -/
abbrev FlashcardStore := List (Int × FlashcardInfo)

/-- Backend `GET flashcard/{id}`. -/
def storeLookup : FlashcardStore → Int → Option FlashcardInfo
  | [], _ => none
  | (k, v) :: rest, fid => if k = fid then some v else storeLookup rest fid

/-- Backend `PUT flashcard/{id}`: replace the record (append when new). -/
def storeInsert : FlashcardStore → Int → FlashcardInfo → FlashcardStore
  | [], fid, info => [(fid, info)]
  | (k, v) :: rest, fid, info =>
    if k = fid then (fid, info) :: rest else (k, v) :: storeInsert rest fid info

/-- The flashcard service over the key-value store: both calls succeed. -/
def storeService : FlashcardServiceModel FlashcardStore :=
  { get_flashcard := fun s fid => Except.ok (storeLookup s fid)
    update_flashcard := fun s fid info => Except.ok (storeInsert s fid info) }

theorem storeLookup_insert_self (s : FlashcardStore) (fid : Int)
    (info : FlashcardInfo) : storeLookup (storeInsert s fid info) fid = some info := by
  induction s with
  | nil => simp [storeInsert, storeLookup]
  | cons p rest ih =>
    obtain ⟨k, v⟩ := p
    by_cases h : k = fid
    · simp [storeInsert, storeLookup, h]
    · simp only [storeInsert, storeLookup, h, if_false]
      exact ih

theorem storeLookup_insert_ne (s : FlashcardStore) (fid fid₂ : Int)
    (info : FlashcardInfo) (h : fid ≠ fid₂) :
    storeLookup (storeInsert s fid₂ info) fid = storeLookup s fid := by
  induction s with
  | nil =>
    simp [storeInsert, storeLookup, Ne.symm h]
  | cons p rest ih =>
    obtain ⟨k, v⟩ := p
    by_cases hk : k = fid₂
    · subst hk
      simp only [storeInsert, if_pos rfl]
      simp only [storeLookup]
      rw [if_neg (Ne.symm h), if_neg (Ne.symm h)]
    · simp only [storeInsert, hk, if_false]
      simp only [storeLookup]
      by_cases hkf : k = fid
      · rw [if_pos hkf, if_pos hkf]
      · rw [if_neg hkf, if_neg hkf]
        exact ih

/-- Reduction of the per-item step over the key-value backend. -/
theorem process_flashcard_store (deck_name : String) (deck_id tag_id : Int)
    (s : FlashcardStore) (fid : Int) :
    process_flashcard storeService deck_name deck_id tag_id s fid
      = match storeLookup s fid with
        | none => (ItemOutcome.failed "Flashcard not found", s)
        | some info =>
          if info.deckId ≠ some deck_id then
            (ItemOutcome.failed ("Flashcard does not belong to deck " ++ deck_name), s)
          else if info.tagId = some tag_id then
            (ItemOutcome.skipped, s)
          else
            (ItemOutcome.updated, storeInsert s fid (update_data info deck_id tag_id)) := by
  unfold process_flashcard storeService
  dsimp only
  cases h : storeLookup s fid <;> rfl

/-- An id is settled in a store state when processing it cannot update it:
it is absent, belongs to another deck, or already carries the target tag. -/
def settled (deck_id tag_id : Int) (s : FlashcardStore) (fid : Int) : Prop :=
  ∀ info, storeLookup s fid = some info →
    (info.deckId ≠ some deck_id ∨ info.tagId = some tag_id)

theorem process_of_settled (deck_name : String) (deck_id tag_id : Int)
    (s : FlashcardStore) (fid : Int) (h : settled deck_id tag_id s fid) :
    (process_flashcard storeService deck_name deck_id tag_id s fid).2 = s
    ∧ (process_flashcard storeService deck_name deck_id tag_id s fid).1
        ≠ ItemOutcome.updated := by
  rw [process_flashcard_store]
  cases hl : storeLookup s fid with
  | none => exact ⟨rfl, by simp⟩
  | some info =>
    dsimp only
    by_cases hd : info.deckId ≠ some deck_id
    · rw [if_pos hd]
      exact ⟨rfl, by simp⟩
    · rw [if_neg hd]
      have ht : info.tagId = some tag_id := by
        cases h info hl with
        | inl h1 => exact absurd h1 hd
        | inr h2 => exact h2
      rw [if_pos ht]
      exact ⟨rfl, by simp⟩

theorem process_post_settled (deck_name : String) (deck_id tag_id : Int)
    (s : FlashcardStore) (fid : Int) :
    settled deck_id tag_id
      (process_flashcard storeService deck_name deck_id tag_id s fid).2 fid := by
  rw [process_flashcard_store]
  cases hl : storeLookup s fid with
  | none =>
    intro info hinfo
    rw [hl] at hinfo
    exact absurd hinfo (by simp)
  | some info =>
    dsimp only
    by_cases hd : info.deckId ≠ some deck_id
    · rw [if_pos hd]
      intro info₂ hinfo₂
      rw [hl] at hinfo₂
      cases hinfo₂
      exact Or.inl hd
    · rw [if_neg hd]
      by_cases ht : info.tagId = some tag_id
      · rw [if_pos ht]
        intro info₂ hinfo₂
        rw [hl] at hinfo₂
        cases hinfo₂
        exact Or.inr ht
      · rw [if_neg ht]
        intro info₂ hinfo₂
        rw [storeLookup_insert_self] at hinfo₂
        cases hinfo₂
        exact Or.inr rfl

theorem process_frame_settled (deck_name : String) (deck_id tag_id : Int)
    (s : FlashcardStore) (fid fid₂ : Int)
    (h : settled deck_id tag_id s fid) :
    settled deck_id tag_id
      (process_flashcard storeService deck_name deck_id tag_id s fid₂).2 fid := by
  by_cases heq : fid = fid₂
  · subst heq
    exact process_post_settled deck_name deck_id tag_id s fid
  · rw [process_flashcard_store]
    cases hl : storeLookup s fid₂ with
    | none => exact h
    | some info =>
      dsimp only
      by_cases hd : info.deckId ≠ some deck_id
      · rw [if_pos hd]
        exact h
      · rw [if_neg hd]
        by_cases ht : info.tagId = some tag_id
        · rw [if_pos ht]
          exact h
        · rw [if_neg ht]
          intro info₂ hinfo₂
          rw [storeLookup_insert_ne _ _ _ _ heq] at hinfo₂
          exact h info₂ hinfo₂

theorem run_frame_settled (deck_name : String) (deck_id tag_id : Int)
    (s : FlashcardStore) (flashcard_ids : List Int) (fid : Int)
    (h : settled deck_id tag_id s fid) :
    settled deck_id tag_id
      (process_flashcards storeService deck_name deck_id tag_id s
        flashcard_ids).2 fid := by
  induction flashcard_ids generalizing s with
  | nil => exact h
  | cons fid₂ rest ih =>
    rw [process_flashcards]
    cases hout : (process_flashcard storeService deck_name deck_id tag_id s fid₂).1
      <;> dsimp only
      <;> exact ih _ (process_frame_settled deck_name deck_id tag_id s fid fid₂ h)

theorem run_post_settled (deck_name : String) (deck_id tag_id : Int)
    (s : FlashcardStore) (flashcard_ids : List Int) :
    ∀ fid ∈ flashcard_ids,
      settled deck_id tag_id
        (process_flashcards storeService deck_name deck_id tag_id s
          flashcard_ids).2 fid := by
  induction flashcard_ids generalizing s with
  | nil => intro fid hmem; exact absurd hmem (by simp)
  | cons fid₂ rest ih =>
    intro fid hmem
    rw [process_flashcards]
    cases hout : (process_flashcard storeService deck_name deck_id tag_id s fid₂).1
      <;> dsimp only
      <;> (cases List.mem_cons.mp hmem with
        | inl heq =>
          subst heq
          exact run_frame_settled deck_name deck_id tag_id _ rest fid
            (process_post_settled deck_name deck_id tag_id s fid)
        | inr hrest => exact ih _ fid hrest)

theorem run_of_settled (deck_name : String) (deck_id tag_id : Int)
    (s : FlashcardStore) (flashcard_ids : List Int)
    (h : ∀ fid ∈ flashcard_ids, settled deck_id tag_id s fid) :
    (process_flashcards storeService deck_name deck_id tag_id s
      flashcard_ids).1.success_count = 0
    ∧ (process_flashcards storeService deck_name deck_id tag_id s
        flashcard_ids).2 = s := by
  induction flashcard_ids generalizing s with
  | nil => exact ⟨rfl, rfl⟩
  | cons fid rest ih =>
    have hs := process_of_settled deck_name deck_id tag_id s fid
      (h fid (List.mem_cons_self fid rest))
    rw [process_flashcards]
    cases hout : (process_flashcard storeService deck_name deck_id tag_id s fid).1 with
    | updated => exact absurd hout hs.2
    | skipped =>
      dsimp only
      rw [hs.1]
      have := ih s (fun f hf => h f (List.mem_cons_of_mem fid hf))
      exact ⟨this.1, this.2⟩
    | failed reason =>
      dsimp only
      rw [hs.1]
      have := ih s (fun f hf => h f (List.mem_cons_of_mem fid hf))
      exact ⟨this.1, this.2⟩

/-- An id that can only fail in the store model: absent, or in another
deck.  Neither status is changed by any update the engine performs. -/
def badItem (deck_id : Int) (s : FlashcardStore) (fid : Int) : Bool :=
  match storeLookup s fid with
  | none => true
  | some info => decide (info.deckId ≠ some deck_id)

theorem process_preserves_badItem (deck_name : String) (deck_id tag_id : Int)
    (s : FlashcardStore) (fid₂ : Int) (fid : Int) :
    badItem deck_id (process_flashcard storeService deck_name deck_id tag_id s
      fid₂).2 fid = badItem deck_id s fid := by
  rw [process_flashcard_store]
  cases hl : storeLookup s fid₂ with
  | none => rfl
  | some info =>
    dsimp only
    by_cases hd : info.deckId ≠ some deck_id
    · rw [if_pos hd]
    · rw [if_neg hd]
      by_cases ht : info.tagId = some tag_id
      · rw [if_pos ht]
      · rw [if_neg ht]
        dsimp only
        by_cases heq : fid = fid₂
        · subst heq
          have hdeck : info.deckId = some deck_id := not_not.mp hd
          unfold badItem
          rw [storeLookup_insert_self, hl]
          dsimp only [update_data]
          rw [hdeck]
        · unfold badItem
          rw [storeLookup_insert_ne _ _ _ _ heq]

theorem run_preserves_badItem (deck_name : String) (deck_id tag_id : Int)
    (s : FlashcardStore) (flashcard_ids : List Int) (fid : Int) :
    badItem deck_id (process_flashcards storeService deck_name deck_id tag_id s
      flashcard_ids).2 fid = badItem deck_id s fid := by
  induction flashcard_ids generalizing s with
  | nil => rfl
  | cons fid₂ rest ih =>
    rw [process_flashcards]
    cases hout : (process_flashcard storeService deck_name deck_id tag_id s fid₂).1
      <;> dsimp only
      <;> rw [ih, process_preserves_badItem]

theorem process_of_bad (deck_name : String) (deck_id tag_id : Int)
    (s : FlashcardStore) (fid : Int) (hb : badItem deck_id s fid = true) :
    ∃ r, process_flashcard storeService deck_name deck_id tag_id s fid
      = (ItemOutcome.failed r, s) := by
  rw [process_flashcard_store]
  unfold badItem at hb
  cases hl : storeLookup s fid with
  | none => exact ⟨"Flashcard not found", rfl⟩
  | some info =>
    rw [hl] at hb
    dsimp only at hb ⊢
    have hd : info.deckId ≠ some deck_id := of_decide_eq_true hb
    rw [if_pos hd]
    exact ⟨_, rfl⟩

theorem process_of_good (deck_name : String) (deck_id tag_id : Int)
    (s : FlashcardStore) (fid : Int) (hb : badItem deck_id s fid = false) :
    ∀ r, (process_flashcard storeService deck_name deck_id tag_id s fid).1
      ≠ ItemOutcome.failed r := by
  rw [process_flashcard_store]
  unfold badItem at hb
  cases hl : storeLookup s fid with
  | none => rw [hl] at hb; exact absurd hb (by simp)
  | some info =>
    rw [hl] at hb
    dsimp only at hb ⊢
    have hd : ¬info.deckId ≠ some deck_id := of_decide_eq_false hb
    rw [if_neg hd]
    by_cases ht : info.tagId = some tag_id
    · rw [if_pos ht]
      intro r
      simp
    · rw [if_neg ht]
      intro r
      simp

theorem run_failed_count (deck_name : String) (deck_id tag_id : Int)
    (s : FlashcardStore) (flashcard_ids : List Int) :
    (process_flashcards storeService deck_name deck_id tag_id s
      flashcard_ids).1.failed_flashcards.length
      = (flashcard_ids.filter (fun fid => badItem deck_id s fid)).length := by
  induction flashcard_ids generalizing s with
  | nil => rfl
  | cons fid rest ih =>
    by_cases hb : badItem deck_id s fid = true
    · obtain ⟨r, hstep⟩ := process_of_bad deck_name deck_id tag_id s fid hb
      rw [process_flashcards, hstep]
      dsimp only
      rw [List.filter_cons_of_pos (p := fun fid => badItem deck_id s fid)
        (a := fid) hb]
      simp only [List.length_cons]
      rw [ih s]
    · have hb' : badItem deck_id s fid = false := by
        revert hb; cases badItem deck_id s fid <;> simp
      rw [process_flashcards]
      cases hout : (process_flashcard storeService deck_name deck_id tag_id s fid).1 with
      | failed r => exact absurd hout (process_of_good deck_name deck_id tag_id s fid hb' r)
      | updated =>
        dsimp only
        rw [ih]
        rw [List.filter_cons_of_neg (p := fun fid => badItem deck_id s fid)
          (a := fid) hb]
        exact congrArg List.length (List.filter_congr (fun a _ =>
          process_preserves_badItem deck_name deck_id tag_id s fid a))
      | skipped =>
        dsimp only
        rw [ih]
        rw [List.filter_cons_of_neg (p := fun fid => badItem deck_id s fid)
          (a := fid) hb]
        exact congrArg List.length (List.filter_congr (fun a _ =>
          process_preserves_badItem deck_name deck_id tag_id s fid a))

/-- C2: Idempotent assignment: a selected flashcard whose current tag id
already equals the resolved tag id is skipped with no update call (the
state is untouched), and re-running the same assignment over the state
produced by a first run performs zero updates, the state does not change,
and every item previously updated or skipped is now counted as skipped. -/
theorem assign_tags_idempotent (deck_name : String) (deck_id tag_id : Int)
    (s : FlashcardStore) (flashcard_ids : List Int) :
    (∀ fid info, storeLookup s fid = some info → info.deckId = some deck_id →
      info.tagId = some tag_id →
      process_flashcard storeService deck_name deck_id tag_id s fid
        = (ItemOutcome.skipped, s))
    ∧ (process_flashcards storeService deck_name deck_id tag_id
        (process_flashcards storeService deck_name deck_id tag_id s
          flashcard_ids).2 flashcard_ids).1.success_count = 0
    ∧ (process_flashcards storeService deck_name deck_id tag_id
        (process_flashcards storeService deck_name deck_id tag_id s
          flashcard_ids).2 flashcard_ids).2
      = (process_flashcards storeService deck_name deck_id tag_id s
          flashcard_ids).2
    ∧ (process_flashcards storeService deck_name deck_id tag_id
        (process_flashcards storeService deck_name deck_id tag_id s
          flashcard_ids).2 flashcard_ids).1.skipped_count
      = (process_flashcards storeService deck_name deck_id tag_id s
          flashcard_ids).1.success_count
        + (process_flashcards storeService deck_name deck_id tag_id s
          flashcard_ids).1.skipped_count := by
  refine ⟨?_, ?_, ?_, ?_⟩
  · intro fid info hlook hdeck htag
    rw [process_flashcard_store, hlook]
    dsimp only
    rw [if_neg (by rw [hdeck]; exact fun hc => hc rfl), if_pos htag]
  · exact (run_of_settled deck_name deck_id tag_id _ flashcard_ids
      (run_post_settled deck_name deck_id tag_id s flashcard_ids)).1
  · exact (run_of_settled deck_name deck_id tag_id _ flashcard_ids
      (run_post_settled deck_name deck_id tag_id s flashcard_ids)).2
  · have h1 := process_flashcards_conservation storeService deck_name deck_id
      tag_id s flashcard_ids
    have h2 := process_flashcards_conservation storeService deck_name deck_id
      tag_id (process_flashcards storeService deck_name deck_id tag_id s
        flashcard_ids).2 flashcard_ids
    have hzero := (run_of_settled deck_name deck_id tag_id _ flashcard_ids
      (run_post_settled deck_name deck_id tag_id s flashcard_ids)).1
    have hf2 := run_failed_count deck_name deck_id tag_id
      (process_flashcards storeService deck_name deck_id tag_id s
        flashcard_ids).2 flashcard_ids
    have hf1 := run_failed_count deck_name deck_id tag_id s flashcard_ids
    have hsame : (flashcard_ids.filter (fun fid => badItem deck_id
        (process_flashcards storeService deck_name deck_id tag_id s
          flashcard_ids).2 fid)).length
        = (flashcard_ids.filter (fun fid => badItem deck_id s fid)).length :=
      congrArg List.length (List.filter_congr (fun a _ =>
        run_preserves_badItem deck_name deck_id tag_id s flashcard_ids a))
    omega

/-- A card already carrying tag 3 in deck 7, for the idempotence witness. -/
def holaTagged : FlashcardInfo :=
  { front := some "hola"
    back := some "hello"
    difficulty := some 2
    deckId := some 7
    tagId := some 3 }

/-- The same card with no tag yet, for the idempotence witness. -/
def holaUntagged : FlashcardInfo :=
  { front := some "hola"
    back := some "hello"
    difficulty := some 2
    deckId := some 7
    tagId := none }

/-- Witness for idempotent assignment on a one-card deck: the already
tagged card is skipped without an update, and a second run over the result
state of a first run performs zero updates, with every first-run update or
skip counted as a skip. -/
theorem assign_tags_idempotent_witness :
    process_flashcard storeService "Spanish" 7 3 [((5 : Int), holaTagged)] 5
      = (ItemOutcome.skipped, [((5 : Int), holaTagged)])
    ∧ (process_flashcards storeService "Spanish" 7 3
        (process_flashcards storeService "Spanish" 7 3
          [((5 : Int), holaUntagged)] [5]).2 [5]).1.success_count = 0
    ∧ (process_flashcards storeService "Spanish" 7 3
        (process_flashcards storeService "Spanish" 7 3
          [((5 : Int), holaUntagged)] [5]).2 [5]).1.skipped_count
      = (process_flashcards storeService "Spanish" 7 3
          [((5 : Int), holaUntagged)] [5]).1.success_count
        + (process_flashcards storeService "Spanish" 7 3
          [((5 : Int), holaUntagged)] [5]).1.skipped_count := by
  refine ⟨?_, ?_, ?_⟩
  · exact (assign_tags_idempotent "Spanish" 7 3 [((5 : Int), holaTagged)] [5]).1
      5 holaTagged (by simp [storeLookup]) rfl rfl
  · exact (assign_tags_idempotent "Spanish" 7 3 [((5 : Int), holaUntagged)] [5]).2.1
  · exact (assign_tags_idempotent "Spanish" 7 3 [((5 : Int), holaUntagged)] [5]).2.2.2

/-! ## Deck-statistics estimator (`get_deck_stats`) -/

/-- A tag row of the MCP deck listing, as carried through `mock_deck_info`
into the estimator: its id and name. -/
structure TagInfo where
  id : Option Int
  name : Option String

/-- One entry of `flashcardsByTag` in the estimated statistics.  Python
renders `percentage` with `round(x, 1)` on a float; the exact rational
value is kept here. -/
structure TagCount where
  tagId : Option Int
  tagName : Option String
  count : Nat
  percentage : ℚ

/-- The `organizationMetrics` object of the estimated statistics. -/
structure OrganizationMetrics where
  organizationPercentage : ℚ
  organizationStatus : String
  tagsCount : Nat
  averageTagsPerFlashcard : ℚ

/-- The `studyMetrics` object of the estimated statistics; the MCP listing
only provides the revisions count, the other fields are fixed zeros. -/
structure StudyMetrics where
  totalReviews : Nat
  correctReviews : Nat
  incorrectReviews : Nat
  accuracyRate : ℚ
  averageDifficulty : ℚ
  currentStreak : Nat

/-- The statistics payload built by `_calculate_basic_stats_from_mcp_data`;
`flashcardsByDifficulty` is the constant empty dict in the source. -/
structure BasicStats where
  totalFlashcards : Nat
  untaggedFlashcards : Nat
  taggedFlashcards : Nat
  flashcardsByDifficulty : Dict
  flashcardsByTag : List TagCount
  organizationMetrics : OrganizationMetrics
  studyMetrics : StudyMetrics

/-- Shallow embedding of `_calculate_basic_stats_from_mcp_data` (tools.py
lines 91-168) over the tag rows of the deck listing, the listing's
`flashcardsCount` and `revisionsCount`.  With tags present all flashcards
are assumed tagged; with flashcards and tags present the per-tag counts
distribute `total // tags` evenly plus one extra for the first
`total % tags` tags in listing order. -/
def _calculate_basic_stats_from_mcp_data (tags_data : List TagInfo)
    (total_flashcards : Nat) (revisionsCount : Nat) : BasicStats :=
  let tags_count := tags_data.length
  let tagged_flashcards := if tags_count > 0 then total_flashcards else 0
  let untagged_flashcards := total_flashcards - tagged_flashcards
  let organization_percentage : ℚ :=
    if total_flashcards > 0 then
      (tagged_flashcards : ℚ) / (total_flashcards : ℚ) * 100
    else 0
  let organization_status :=
    if total_flashcards = 0 then "empty"
    else if untagged_flashcards = 0 ∧ tags_count > 0 then "organized"
    else "needs_organization"
  let flashcards_per_tag := total_flashcards / tags_count
  let remainder := total_flashcards % tags_count
  let flashcards_by_tag :=
    if tags_count > 0 ∧ total_flashcards > 0 then
      tags_data.enum.map (fun p =>
        { tagId := p.2.id
          tagName := p.2.name
          count := flashcards_per_tag + (if p.1 < remainder then 1 else 0)
          percentage := (((flashcards_per_tag
            + (if p.1 < remainder then 1 else 0) : Nat) : ℚ)
            / (total_flashcards : ℚ)) * 100 })
    else []
  let average_tags_per_flashcard : ℚ :=
    if total_flashcards > 0 then (tags_count : ℚ) / (total_flashcards : ℚ) else 0
  { totalFlashcards := total_flashcards
    untaggedFlashcards := untagged_flashcards
    taggedFlashcards := tagged_flashcards
    flashcardsByDifficulty := []
    flashcardsByTag := flashcards_by_tag
    organizationMetrics :=
      { organizationPercentage := organization_percentage
        organizationStatus := organization_status
        tagsCount := tags_count
        averageTagsPerFlashcard := average_tags_per_flashcard }
    studyMetrics :=
      { totalReviews := revisionsCount
        correctReviews := 0
        incorrectReviews := 0
        accuracyRate := 0
        averageDifficulty := 0
        currentStreak := 0 } }

theorem sum_range_evenly (per rem : Nat) (K : Nat) :
    ((List.range K).map (fun i => per + if i < rem then 1 else 0)).sum
      = K * per + min rem K := by
  induction K with
  | zero => simp
  | succ n ih =>
    rw [List.range_succ, List.map_append, List.sum_append, ih]
    simp only [List.map_cons, List.map_nil, List.sum_cons, List.sum_nil]
    by_cases h : n < rem
    · rw [if_pos h]
      have hmin : min rem (n + 1) = min rem n + 1 := by omega
      rw [hmin]
      ring_nf
    · rw [if_neg h]
      have hmin : min rem (n + 1) = min rem n := by omega
      rw [hmin]
      ring_nf

/-- C6 (amended): in the estimated fallback with K > 0 tags, the per-tag
counts always sum to the flashcard total T; when additionally T > 0 there
is one entry per tag and the i-th tag (0-based, listing order) gets
`T / K + 1` when `i < T % K` and `T / K` otherwise; when T = 0 the
per-tag list is empty (and its sum is still T). -/
theorem estimated_distribution (tags_data : List TagInfo) (T rc : Nat)
    (hK : 0 < tags_data.length) :
    (((_calculate_basic_stats_from_mcp_data tags_data T rc).flashcardsByTag.map
        (fun tc => tc.count)).sum = T)
    ∧ (0 < T →
        (_calculate_basic_stats_from_mcp_data tags_data T rc).flashcardsByTag.length
          = tags_data.length
        ∧ ∀ i, ∀ h : i < (_calculate_basic_stats_from_mcp_data tags_data T
            rc).flashcardsByTag.length,
          ((_calculate_basic_stats_from_mcp_data tags_data T rc).flashcardsByTag.get
            ⟨i, h⟩).count
            = T / tags_data.length
              + (if i < T % tags_data.length then 1 else 0))
    ∧ (T = 0 →
        (_calculate_basic_stats_from_mcp_data tags_data T rc).flashcardsByTag = []) := by
  unfold _calculate_basic_stats_from_mcp_data
  dsimp only
  by_cases hT : 0 < T
  · rw [if_pos ⟨hK, hT⟩]
    refine ⟨?_, fun _ => ⟨?_, ?_⟩, fun hT0 => absurd hT0 (by omega)⟩
    · rw [List.map_map]
      show ((tags_data.enum.map
        ((fun i => T / tags_data.length
          + if i < T % tags_data.length then 1 else 0) ∘ Prod.fst)).sum = T)
      rw [← List.map_map, List.enum_eq_enumFrom, List.enumFrom_map_fst,
        ← List.range_eq_range', sum_range_evenly]
      have hmod : T % tags_data.length < tags_data.length := Nat.mod_lt _ hK
      rw [Nat.min_eq_left (le_of_lt hmod)]
      exact Nat.div_add_mod T tags_data.length
    · simp [List.enum_eq_enumFrom]
    · intro i h
      rw [List.get_eq_getElem]
      simp only [List.getElem_map, List.enum_eq_enumFrom, List.getElem_enumFrom,
        Nat.zero_add]
  · have hT0 : T = 0 := by omega
    subst hT0
    rw [if_neg (fun hc => absurd hc.2 (by omega))]
    exact ⟨rfl, fun hc => absurd hc (by omega), fun _ => rfl⟩

/-- C6 counterexample: a deck with 0 flashcards and K = 1 > 0 tags yields
an empty `flashcardsByTag` list: there is no 0-th estimated count at all,
although the claim promises one per tag for every total T. -/
theorem estimated_distribution_cex :
    (0 : Nat) < ([{ id := some 1, name := some "A" }] : List TagInfo).length
    ∧ (_calculate_basic_stats_from_mcp_data
        [{ id := some 1, name := some "A" }] 0 0).flashcardsByTag.length = 0 := by
  constructor
  · decide
  · rfl

/-- Witness for the estimated distribution: 11 flashcards over 3 tags give
per-tag counts `[4, 4, 3]` (remainder-first), summing to 11. -/
theorem estimated_distribution_witness :
    ((_calculate_basic_stats_from_mcp_data
        [{ id := some 1, name := some "A" },
          { id := some 2, name := some "B" },
          { id := some 3, name := some "C" }] 11 0).flashcardsByTag.map
      (fun tc => tc.count)).sum = 11
    ∧ ((_calculate_basic_stats_from_mcp_data
        [{ id := some 1, name := some "A" },
          { id := some 2, name := some "B" },
          { id := some 3, name := some "C" }] 11 0).flashcardsByTag.map
      (fun tc => tc.count)) = [4, 4, 3] := by
  refine ⟨(estimated_distribution
    [{ id := some 1, name := some "A" },
      { id := some 2, name := some "B" },
      { id := some 3, name := some "C" }] 11 0 (by decide)).1, ?_⟩
  rfl

/-- The payload of the upstream deck-statistics endpoint as consumed by
`get_deck_stats`: the structured `data.stats` object (empty when the
backend has none) and `data.lastUpdated`. -/
structure StatsEndpointData where
  stats : Dict
  lastUpdated : Option String

/-- The statistics carried in the `get_deck_stats` result: the raw backend
stats object passed through, or the locally calculated estimate. -/
inductive StatsPayload where
  | backend (raw : Dict)
  | calculated (s : BasicStats)

/-- The fields of the `get_deck_stats` result determined by the two-tier
strategy. -/
structure DeckStatsResult where
  statistics : StatsPayload
  data_source : String
  last_updated : String

/-- Shallow embedding of the two-tier strategy of `get_deck_stats`
(tools.py lines 1370-1445): call the upstream statistics endpoint (the
call outcome, a return or a raise, is `statsCall`); a successful call with
a non-empty `stats` object passes it through unchanged under
`data_source = "backend_stats"`; a raise or an empty payload falls back to
`_calculate_basic_stats_from_mcp_data` over the deck-listing tags and
counts, under `data_source = "calculated_fallback"`. -/
def get_deck_stats_core (statsCall : Except String StatsEndpointData)
    (mcp_tags : List TagInfo) (flashcardsCount revisionsCount : Nat) :
    DeckStatsResult :=
  match statsCall with
  | Except.ok resp =>
    if !resp.stats.isEmpty then
      { statistics := StatsPayload.backend resp.stats
        data_source := "backend_stats"
        last_updated := resp.lastUpdated.getD "2025-01-01T00:00:00Z" }
    else
      { statistics := StatsPayload.calculated
          (_calculate_basic_stats_from_mcp_data mcp_tags flashcardsCount
            revisionsCount)
        data_source := "calculated_fallback"
        last_updated := "2025-01-01T00:00:00Z" }
  | Except.error _ =>
    { statistics := StatsPayload.calculated
        (_calculate_basic_stats_from_mcp_data mcp_tags flashcardsCount
          revisionsCount)
      data_source := "calculated_fallback"
      last_updated := "2025-01-01T00:00:00Z" }

/-- C5: Two-tier statistics: a successful upstream call with a non-empty
stats payload is passed through unchanged and marked `backend_stats`; a
failed call or an empty payload yields statistics calculated from the
deck-listing data, marked `calculated_fallback`; in every case exactly one
of the two sources is used, and the `data_source` marker identifies it. -/
theorem deck_stats_two_tier (statsCall : Except String StatsEndpointData)
    (mcp_tags : List TagInfo) (flashcardsCount revisionsCount : Nat) :
    (∀ resp, statsCall = Except.ok resp → resp.stats.isEmpty = false →
      (get_deck_stats_core statsCall mcp_tags flashcardsCount
        revisionsCount).statistics = StatsPayload.backend resp.stats
      ∧ (get_deck_stats_core statsCall mcp_tags flashcardsCount
        revisionsCount).data_source = "backend_stats")
    ∧ (∀ resp, statsCall = Except.ok resp → resp.stats.isEmpty = true →
      (get_deck_stats_core statsCall mcp_tags flashcardsCount
        revisionsCount).statistics
        = StatsPayload.calculated (_calculate_basic_stats_from_mcp_data
          mcp_tags flashcardsCount revisionsCount)
      ∧ (get_deck_stats_core statsCall mcp_tags flashcardsCount
        revisionsCount).data_source = "calculated_fallback")
    ∧ (∀ e, statsCall = Except.error e →
      (get_deck_stats_core statsCall mcp_tags flashcardsCount
        revisionsCount).statistics
        = StatsPayload.calculated (_calculate_basic_stats_from_mcp_data
          mcp_tags flashcardsCount revisionsCount)
      ∧ (get_deck_stats_core statsCall mcp_tags flashcardsCount
        revisionsCount).data_source = "calculated_fallback")
    ∧ ((get_deck_stats_core statsCall mcp_tags flashcardsCount
        revisionsCount).data_source = "backend_stats"
      ∨ (get_deck_stats_core statsCall mcp_tags flashcardsCount
        revisionsCount).data_source = "calculated_fallback")
    ∧ ((get_deck_stats_core statsCall mcp_tags flashcardsCount
        revisionsCount).data_source = "backend_stats"
      ↔ ∃ raw, (get_deck_stats_core statsCall mcp_tags flashcardsCount
        revisionsCount).statistics = StatsPayload.backend raw) := by
  refine ⟨?_, ?_, ?_, ?_, ?_⟩
  · intro resp hcall hne
    subst hcall
    unfold get_deck_stats_core
    dsimp only
    rw [if_pos (by rw [hne]; rfl)]
    exact ⟨rfl, rfl⟩
  · intro resp hcall hemp
    subst hcall
    unfold get_deck_stats_core
    dsimp only
    rw [if_neg (by rw [hemp]; exact fun hc => Bool.false_ne_true hc)]
    exact ⟨rfl, rfl⟩
  · intro e hcall
    subst hcall
    exact ⟨rfl, rfl⟩
  · cases statsCall with
    | error e => exact Or.inr rfl
    | ok resp =>
      unfold get_deck_stats_core
      dsimp only
      by_cases h : resp.stats.isEmpty = true
      · rw [if_neg (by rw [h]; exact fun hc => Bool.false_ne_true hc)]
        exact Or.inr rfl
      · have h' : resp.stats.isEmpty = false := by
          revert h; cases resp.stats.isEmpty <;> simp
        rw [if_pos (by rw [h']; rfl)]
        exact Or.inl rfl
  · cases statsCall with
    | error e =>
      constructor
      · intro hc
        simp [get_deck_stats_core] at hc
      · intro ⟨raw, hraw⟩
        exact absurd hraw (by simp [get_deck_stats_core])
    | ok resp =>
      unfold get_deck_stats_core
      dsimp only
      by_cases h : resp.stats.isEmpty = true
      · rw [if_neg (by rw [h]; exact fun hc => Bool.false_ne_true hc)]
        constructor
        · intro hc
          simp at hc
        · intro ⟨raw, hraw⟩
          exact absurd hraw (by simp)
      · have h' : resp.stats.isEmpty = false := by
          revert h; cases resp.stats.isEmpty <;> simp
        rw [if_pos (by rw [h']; rfl)]
        exact ⟨fun _ => ⟨resp.stats, rfl⟩, fun _ => rfl⟩

/-- A concrete non-empty upstream stats payload, for the two-tier witness. -/
def statsSample : StatsEndpointData :=
  { stats := [("totalFlashcards", JVal.num 11)]
    lastUpdated := none }

/-- Witness for the two-tier strategy at concrete inputs: a successful
non-empty upstream payload is passed through under `backend_stats`, and a
raising upstream call falls back to the calculated estimate under
`calculated_fallback`. -/
theorem deck_stats_two_tier_witness :
    ((get_deck_stats_core (Except.ok statsSample) [] 0 0).statistics
        = StatsPayload.backend statsSample.stats
      ∧ (get_deck_stats_core (Except.ok statsSample) [] 0 0).data_source
        = "backend_stats")
    ∧ ((get_deck_stats_core (Except.error "Server error") [] 0 0).statistics
        = StatsPayload.calculated (_calculate_basic_stats_from_mcp_data [] 0 0)
      ∧ (get_deck_stats_core (Except.error "Server error") [] 0 0).data_source
        = "calculated_fallback") :=
  ⟨(deck_stats_two_tier (Except.ok statsSample) [] 0 0).1 statsSample rfl rfl,
    (deck_stats_two_tier (Except.error "Server error") [] 0 0).2.2.1
      "Server error" rfl⟩
